import Mathlib

/-!
Verification of the operation-graph lowering of `llvm_ir::from_graph`
(cppad_lib/llvm/ir_from_graph.cpp) and of the `FunCheck` equivalence-check
example (Example/FunCheck.cpp).

The lowering routine emits LLVM IR whose runtime semantics we embed
shallowly: IEEE-754 double special values (NaN, signed infinities, signed
zeros) are modelled by the inductive type `FP`, with finite nonzero values
carried exactly as rationals (the claims under study only exercise the
special-value algebra, where no rounding occurs).  The emitted function's
behaviour is captured by `callCompiled`, obtained by tracing the IRBuilder
calls of the source one by one.
-/

namespace CppAD

/-- Model of an IEEE-754 binary64 value as far as the lowered code
distinguishes them: NaN, signed infinity, signed zero, or a finite nonzero
value (carried exactly; the sign flag `true` means negative). -/
inductive FP where
  | nan : FP
  | inf (neg : Bool) : FP
  | zero (neg : Bool) : FP
  | num (q : ℚ) : FP
  deriving DecidableEq, Repr

namespace FP

/-- Sign bit of a value (`true` = negative); NaN's sign is irrelevant to the
operations modelled here and is reported as `false`. -/
def sign : FP → Bool
  | nan => false
  | inf s => s
  | zero s => s
  | num q => decide (q < 0)

/-- IEEE negation (`fneg`): flips the sign bit. -/
def fneg : FP → FP
  | nan => nan
  | inf s => inf (!s)
  | zero s => zero (!s)
  | num q => num (-q)

/-- IEEE addition (`fadd`, round-to-nearest): NaN propagates; opposite
infinities give NaN; exact cancellation of finite values gives `+0.0`. -/
def fadd : FP → FP → FP
  | nan, _ => nan
  | _, nan => nan
  | inf s, inf t => if s = t then inf s else nan
  | inf s, zero _ => inf s
  | inf s, num _ => inf s
  | zero _, inf t => inf t
  | num _, inf t => inf t
  | zero s, zero t => if s = t then zero s else zero false
  | zero _, num q => if q = 0 then zero false else num q
  | num q, zero _ => if q = 0 then zero false else num q
  | num a, num b => if a + b = 0 then zero false else num (a + b)

/-- IEEE subtraction: `a - b = a + (-b)` exactly. -/
def fsub (a b : FP) : FP := fadd a (fneg b)

/-- IEEE multiplication (`fmul`): NaN propagates; `0 * inf = NaN`;
signs combine by xor. -/
def fmul : FP → FP → FP
  | nan, _ => nan
  | _, nan => nan
  | inf s, inf t => inf (xor s t)
  | inf _, zero _ => nan
  | zero _, inf _ => nan
  | inf s, num q => inf (xor s (decide (q < 0)))
  | num q, inf t => inf (xor (decide (q < 0)) t)
  | zero s, zero t => zero (xor s t)
  | zero s, num q => zero (xor s (decide (q < 0)))
  | num q, zero t => zero (xor (decide (q < 0)) t)
  | num a, num b => if a * b = 0 then zero (xor (decide (a < 0)) (decide (b < 0))) else num (a * b)

/-- IEEE division (`fdiv`): NaN propagates; `0/0` and `inf/inf` give NaN;
division of a nonzero finite by zero gives a signed infinity. -/
def fdiv : FP → FP → FP
  | nan, _ => nan
  | _, nan => nan
  | inf _, inf _ => nan
  | inf s, zero t => inf (xor s t)
  | inf s, num q => inf (xor s (decide (q < 0)))
  | zero s, inf t => zero (xor s t)
  | zero _, zero _ => nan
  | num q, inf t => zero (xor (decide (q < 0)) t)
  | zero s, num q => if q = 0 then nan else zero (xor s (decide (q < 0)))
  | num q, zero t => if q = 0 then nan else inf (xor (decide (q < 0)) t)
  | num a, num b =>
      if b = 0 then (if a = 0 then nan else inf (decide (a < 0)))
      else if a / b = 0 then zero (xor (decide (a < 0)) (decide (b < 0)))
      else num (a / b)

/-- IEEE ordered equality (`fcmp oeq`): false when either side is NaN;
`-0.0 == +0.0` is true; otherwise compare values. -/
def fcmpOEQ : FP → FP → Bool
  | nan, _ => false
  | _, nan => false
  | inf s, inf t => s = t
  | inf _, zero _ => false
  | inf _, num _ => false
  | zero _, inf _ => false
  | num _, inf _ => false
  | zero _, zero _ => true
  | zero _, num q => q = 0
  | num q, zero _ => q = 0
  | num a, num b => a = b

end FP

/-- The floating point constant `0.0` materialised by the lowering
(`llvm::ConstantFP::get(..., llvm::APFloat(0.0))`): positive zero. -/
def fpZero : FP := FP.zero false

/-- Operator tags of the C++ AD graph (`CppAD::graph::graph_op_enum`),
restricted to the tags exercised here: the seven with a lowering case in
`from_graph` plus representative unsupported tags. -/
inductive graph_op_enum where
  | abs_graph_op
  | acosh_graph_op
  | add_graph_op
  | atom_graph_op
  | azmul_graph_op
  | div_graph_op
  | exp_graph_op
  | mul_graph_op
  | neg_graph_op
  | pow_graph_op
  | sin_graph_op
  | sub_graph_op
  deriving DecidableEq, Repr

/-- `local::graph::op_enum2name`: printable name of an operator tag. -/
def op_enum2name : graph_op_enum → String
  | .abs_graph_op => "abs"
  | .acosh_graph_op => "acosh"
  | .add_graph_op => "add"
  | .atom_graph_op => "atom"
  | .azmul_graph_op => "azmul"
  | .div_graph_op => "div"
  | .exp_graph_op => "exp"
  | .mul_graph_op => "mul"
  | .neg_graph_op => "neg"
  | .pow_graph_op => "pow"
  | .sin_graph_op => "sin"
  | .sub_graph_op => "sub"

/-- Whether an operator tag has a case in `from_graph`'s lowering switch
(the tags that do not fall to the `default:` error branch). -/
def supported : graph_op_enum → Bool
  | .acosh_graph_op => true
  | .add_graph_op => true
  | .azmul_graph_op => true
  | .div_graph_op => true
  | .mul_graph_op => true
  | .neg_graph_op => true
  | .sub_graph_op => true
  | _ => false

/-- One entry of the graph's `operator_vec`: an operator tag and its
argument node indices (1-based into the global value numbering). -/
structure GraphNode where
  op : graph_op_enum
  arg : List Nat
  deriving DecidableEq, Repr

/-- The C++ AD operation graph (`CppAD::cpp_graph`), with the fields
`from_graph` reads.  The three unsupported-content tables are represented
by their sizes, which is all `from_graph` inspects. -/
structure cpp_graph where
  function_name : String
  n_dynamic_ind : Nat
  n_variable_ind : Nat
  constant_vec : List FP
  operator_vec : List GraphNode
  dependent_vec : List Nat
  discrete_name_vec_size : Nat
  atomic_name_vec_size : Nat
  print_text_vec_size : Nat
  deriving DecidableEq, Repr

/-- Signed 32-bit interpretation of a `size_t` value, as produced by
`llvm::APInt(32, n, true)`: truncate modulo `2^32`, read as two's
complement. -/
def int32OfNat (n : Nat) : Int :=
  let m : Nat := n % 2 ^ 32
  if m < 2 ^ 31 then (m : Int) else (m : Int) - 2 ^ 32

/-- The "Assumptions" and `function_name_` checks at the top of
`from_graph` (ir_from_graph.cpp lines 99-125), in source order, each an
early `return msg`; `none` when all four pass. -/
def checkGraph (g : cpp_graph) : Option String :=
  if g.discrete_name_vec_size ≠ 0 then
    some ("llvm_ir::from_graph: " ++ "graph_obj.discrete_name_vec_size() != 0")
  else if g.atomic_name_vec_size ≠ 0 then
    some ("llvm_ir::from_graph: " ++ "graph_obj.atomic_name_vec_size() != 0")
  else if g.print_text_vec_size ≠ 0 then
    some ("llvm_ir::from_graph: " ++ "graph_obj.print_text_vec_size() != 0")
  else if g.function_name = "" then
    some ("llvm_ir::from_graph: " ++ "graph_obj.function_name_get() is empty")
  else
    none

/-- The first node of `operator_vec` whose tag falls to the `default:`
branch of the lowering switch; the per-node loop returns its error message
at the first such node. -/
def firstUnsupportedOp (ops : List GraphNode) : Option GraphNode :=
  ops.find? fun n => !supported n.op

/-- `llvm_ir::from_graph` as observed through its returned message.  The
structural verifier (`llvm::verifyFunction`, an external LLVM library
routine whose result is a deterministic function of the emitted module,
hence of the graph) is passed in as the oracle `verifyFn`; `verifyFn g =
true` means the verifier found an error. -/
def from_graph (verifyFn : cpp_graph → Bool) (g : cpp_graph) : String :=
  match checkGraph g with
  | some m => m
  | none =>
    match firstUnsupportedOp g.operator_vec with
    | some n =>
        "llvm_ir::from_graph: " ++ "graph_obj has following unsupported operator "
          ++ op_enum2name n.op
    | none =>
        if verifyFn g then
          "llvm_ir::from_graph: " ++ "error during verification of llvm_ir function"
        else ""

/-- Value computed by one lowering switch case, given the values of the
(up to two) argument slots.  `acoshImpl` is the external libm `acosh`
reached through the emitted call instruction.  The `azmul` case mirrors
the emitted `fmul` / `fcmp oeq` against `fp_zero` / `select` triple.
Unsupported tags never reach this point (`from_graph` returns before
pushing a value for them); their result here is an arbitrary `nan`. -/
def applyOp (acoshImpl : FP → FP) (op : graph_op_enum) (x y : FP) : FP :=
  match op with
  | .acosh_graph_op => acoshImpl x
  | .add_graph_op => FP.fadd x y
  | .div_graph_op => FP.fdiv x y
  | .mul_graph_op => FP.fmul x y
  | .neg_graph_op => FP.fneg x
  | .sub_graph_op => FP.fsub x y
  | .azmul_graph_op =>
      let value := FP.fmul x y
      let is_zero := FP.fcmpOEQ x fpZero
      if is_zero then fpZero else value
  | _ => FP.nan

/-- The `graph_ir` value table just before the operator loop: a `nullptr`
sentinel at index 0 (modelled `nan`), then the loads of the dynamic
independents `input_ptr[i]`, then the loads of the variable independents
`input_ptr[n_dynamic_ind + i]`, then the materialised constants. -/
def initIR (g : cpp_graph) (input : List FP) : List FP :=
  FP.nan ::
    (((List.range g.n_dynamic_ind).map fun i => input.getD i FP.nan) ++
     ((List.range g.n_variable_ind).map fun i => input.getD (g.n_dynamic_ind + i) FP.nan) ++
     g.constant_vec)

/-- One iteration of the operator loop: push the new node's value onto
`graph_ir`, reading argument slots from the table built so far. -/
def pushOp (acoshImpl : FP → FP) (ir : List FP) (n : GraphNode) : List FP :=
  ir ++ [applyOp acoshImpl n.op (ir.getD (n.arg.getD 0 0) FP.nan) (ir.getD (n.arg.getD 1 0) FP.nan)]

/-- The complete `graph_ir` table after the operator loop. -/
def lowerIR (acoshImpl : FP → FP) (g : cpp_graph) (input : List FP) : List FP :=
  g.operator_vec.foldl (pushOp acoshImpl) (initIR g input)

/-- Runtime semantics of the emitted function, traced from the IRBuilder
calls: the combined length check (icmp ne / icmp ne / or, returning the
zero-extended error flag on the error branch), then the value-table
construction, the stores of the dependent slots into `output_ptr[0..]`,
and `ret error_no` (zero on this path).  Returns the `int32` return value
and the final contents of the output buffer. -/
def callCompiled (acoshImpl : FP → FP) (g : cpp_graph)
    (len_input : Int) (input : List FP) (len_output : Int) (output : List FP) :
    Int × List FP :=
  let n_input := g.n_dynamic_ind + g.n_variable_ind
  let error_len_input := len_input ≠ int32OfNat n_input
  let error_len_output := len_output ≠ int32OfNat g.dependent_vec.length
  let error_len := error_len_input ∨ error_len_output
  let error_no : Int := if error_len then 1 else 0
  if error_len then (error_no, output)
  else
    let ir := lowerIR acoshImpl g input
    let stores := (List.range g.dependent_vec.length).map
      fun i => ir.getD (g.dependent_vec.getD i 0) FP.nan
    (error_no, stores ++ output.drop g.dependent_vec.length)

/-- Modelled from the spec: the single global value numbering of §3/§4.2 —
slot 0 reserved, slots `1..n_dynamic` read `input[0..]`, the next
`n_variable` slots read the following input entries, then the constants,
then one slot per operator node computed strictly in sequence order from
earlier slots (a forward reference, excluded by the DAG invariant, is
given the out-of-range default `nan`). -/
def nodeValue (acoshImpl : FP → FP) (g : cpp_graph) (input : List FP) : Nat → FP
  | i =>
    if i = 0 then FP.nan
    else if i < 1 + g.n_dynamic_ind + g.n_variable_ind then
      input.getD (i - 1) FP.nan
    else if i < 1 + g.n_dynamic_ind + g.n_variable_ind + g.constant_vec.length then
      g.constant_vec.getD (i - 1 - g.n_dynamic_ind - g.n_variable_ind) FP.nan
    else
      match g.operator_vec.get?
        (i - (1 + g.n_dynamic_ind + g.n_variable_ind + g.constant_vec.length)) with
      | none => FP.nan
      | some n =>
          applyOp acoshImpl n.op
            (if h0 : n.arg.getD 0 0 < i then nodeValue acoshImpl g input (n.arg.getD 0 0)
             else FP.nan)
            (if h1 : n.arg.getD 1 0 < i then nodeValue acoshImpl g input (n.arg.getD 1 0)
             else FP.nan)
  termination_by i => i
  decreasing_by
    · exact h0
    · exact h1

/-- Concrete two-independent / one-dependent graph computing `x0 + x1`,
used to instantiate the general theorems. -/
def addExampleGraph : cpp_graph :=
  { function_name := "add_example"
    n_dynamic_ind := 0
    n_variable_ind := 2
    constant_vec := []
    operator_vec := [⟨.add_graph_op, [1, 2]⟩]
    dependent_vec := [3]
    discrete_name_vec_size := 0
    atomic_name_vec_size := 0
    print_text_vec_size := 0 }

/-- Concrete two-independent / one-dependent graph computing
`azmul(x0, x1)`, used to exercise the azmul lowering. -/
def azmulExampleGraph : cpp_graph :=
  { function_name := "azmul_example"
    n_dynamic_ind := 0
    n_variable_ind := 2
    constant_vec := []
    operator_vec := [⟨.azmul_graph_op, [1, 2]⟩]
    dependent_vec := [3]
    discrete_name_vec_size := 0
    atomic_name_vec_size := 0
    print_text_vec_size := 0 }

/-- Concrete graph whose only node carries the unsupported `sin` tag. -/
def sinExampleGraph : cpp_graph :=
  { function_name := "sin_example"
    n_dynamic_ind := 0
    n_variable_ind := 1
    constant_vec := []
    operator_vec := [⟨.sin_graph_op, [1]⟩]
    dependent_vec := [2]
    discrete_name_vec_size := 0
    atomic_name_vec_size := 0
    print_text_vec_size := 0 }

/-! ### The FunCheck example (Example/FunCheck.cpp) -/

/-- Modelled from the spec: the equivalence check `FunCheck` (§4.3) — the
per-component pass condition `|candidate_i - reference_i| <= absolute_tol
+ relative_tol * |reference_i|`, conjoined over all components.
(`CppAD::FunCheck` itself is library code not present under src/; only
its caller Example/FunCheck.cpp is.) -/
def FunCheckHolds (candidate reference : List ℝ → List ℝ) (x : List ℝ)
    (absolute_tol relative_tol : ℝ) : Prop :=
  ∀ i, i < (reference x).length →
    |(candidate x).getD i 0 - (reference x).getD i 0|
      ≤ absolute_tol + relative_tol * |(reference x).getD i 0|

/-- Modelled from the spec: the operation sequence of the componentwise
function `f(x) = exp(x) if x >= 0 else exp(-x)` recorded at the point `X`
(the ADFun recording machinery is library code not present under src/):
the recorded tape bakes in, for each component, the branch the comparison
`X[i] >= 0` took at the recording point. -/
noncomputable def tapedFun (X : List ℝ) (x : List ℝ) : List ℝ :=
  (List.range X.length).map fun i =>
    if X.getD i 0 ≥ 0 then Real.exp (x.getD i 0) else Real.exp (-(x.getD i 0))

/-- The reference evaluator `g` of Example/FunCheck.cpp (the `Fun` object
over plain doubles): re-evaluates the branch at the argument itself. -/
noncomputable def refFun (x : List ℝ) : List ℝ :=
  x.map fun xi => if xi ≥ 0 then Real.exp xi else Real.exp (-xi)

/-! ### Helper lemmas about the value table -/

theorem pushOp_length (ac : FP → FP) (ir : List FP) (n : GraphNode) :
    (pushOp ac ir n).length = ir.length + 1 := by
  simp [pushOp]

theorem foldl_pushOp_length (ac : FP → FP) (ops : List GraphNode) (ir0 : List FP) :
    (ops.foldl (pushOp ac) ir0).length = ir0.length + ops.length := by
  induction ops generalizing ir0 with
  | nil => simp
  | cons hd tl ih =>
      rw [List.foldl_cons, ih, pushOp_length, List.length_cons]
      omega

theorem foldl_pushOp_getD (ac : FP → FP) (ops : List GraphNode) (ir0 : List FP)
    (i : Nat) (d : FP) (h : i < ir0.length) :
    (ops.foldl (pushOp ac) ir0).getD i d = ir0.getD i d := by
  induction ops generalizing ir0 with
  | nil => rfl
  | cons hd tl ih =>
      rw [List.foldl_cons, ih _ (by rw [pushOp_length]; omega)]
      exact List.getD_append _ _ _ _ h

theorem initIR_length (g : cpp_graph) (input : List FP) :
    (initIR g input).length
      = 1 + g.n_dynamic_ind + g.n_variable_ind + g.constant_vec.length := by
  simp [initIR]
  omega

theorem initIR_getD (ac : FP → FP) (g : cpp_graph) (input : List FP) (i : Nat)
    (h : i < (initIR g input).length) :
    (initIR g input).getD i FP.nan = nodeValue ac g input i := by
  rw [initIR_length] at h
  rcases Nat.eq_zero_or_pos i with hz | hp
  · subst hz
    rw [nodeValue]
    simp [initIR]
  · obtain ⟨j, rfl⟩ : ∃ j, i = j + 1 := ⟨i - 1, by omega⟩
    rw [nodeValue]
    simp only [initIR, List.getD_cons_succ]
    rw [if_neg (Nat.succ_ne_zero j)]
    have hA : ((List.range g.n_dynamic_ind).map
        fun i => input.getD i FP.nan).length = g.n_dynamic_ind := by simp
    have hB : ((List.range g.n_variable_ind).map
        fun i => input.getD (g.n_dynamic_ind + i) FP.nan).length = g.n_variable_ind := by
      simp
    by_cases h2 : j < g.n_dynamic_ind + g.n_variable_ind
    · rw [List.getD_append _ _ _ _ (by rw [List.length_append, hA, hB]; omega)]
      rw [if_pos (by omega)]
      simp only [Nat.add_sub_cancel]
      by_cases h1 : j < g.n_dynamic_ind
      · rw [List.getD_append _ _ _ _ (by rw [hA]; omega)]
        rw [List.getD_eq_getElem _ _ (by rw [hA]; omega)]
        simp only [List.getElem_map, List.getElem_range]
      · rw [List.getD_append_right _ _ _ _ (by rw [hA]; omega)]
        rw [List.getD_eq_getElem _ _ (by rw [hB, hA]; omega)]
        simp only [List.getElem_map, List.getElem_range, hA]
        congr 1
        omega
    · -- constant slot
      rw [List.getD_append_right _ _ _ _ (by rw [List.length_append, hA, hB]; omega)]
      rw [if_neg (by omega), if_pos (by omega)]
      rw [List.length_append, hA, hB]
      congr 1
      omega

theorem lowerIR_take_getD (ac : FP → FP) (g : cpp_graph) (input : List FP) :
    ∀ k, k ≤ g.operator_vec.length →
      ∀ i, i < (initIR g input).length + k →
        ((g.operator_vec.take k).foldl (pushOp ac) (initIR g input)).getD i FP.nan
          = nodeValue ac g input i := by
  intro k
  induction k with
  | zero =>
      intro _ i hi
      rw [List.take_zero, List.foldl_nil]
      exact initIR_getD ac g input i (by omega)
  | succ k ih =>
      intro hk i hi
      have hklt : k < g.operator_vec.length := by omega
      have htake : g.operator_vec.take (k + 1)
          = g.operator_vec.take k ++ [g.operator_vec.get ⟨k, hklt⟩] := by
        rw [List.take_succ, List.getElem?_eq_getElem hklt]
        rfl
      rw [htake, List.foldl_append, List.foldl_cons, List.foldl_nil]
      set irk := (g.operator_vec.take k).foldl (pushOp ac) (initIR g input) with hirk
      have hlen : irk.length = (initIR g input).length + k := by
        rw [hirk, foldl_pushOp_length, List.length_take]
        omega
      by_cases hcase : i < (initIR g input).length + k
      · rw [pushOp, List.getD_append _ _ _ _ (by omega)]
        exact ih (by omega) i hcase
      · have hieq : i = (initIR g input).length + k := by omega
        rw [pushOp, List.getD_append_right _ _ _ _ (by omega)]
        have hzero : i - irk.length = 0 := by omega
        rw [hzero, List.getD_cons_zero]
        have hbase := initIR_length g input
        conv_rhs => rw [nodeValue]
        rw [if_neg (by omega), if_neg (by omega), if_neg (by omega)]
        have hidx : i - (1 + g.n_dynamic_ind + g.n_variable_ind + g.constant_vec.length)
            = k := by omega
        rw [hidx, List.get?_eq_get hklt]
        congr 1
        · by_cases h0 : (g.operator_vec.get ⟨k, hklt⟩).arg.getD 0 0 < i
          · rw [dif_pos h0]
            exact ih (by omega) _ (by omega)
          · rw [dif_neg h0]
            exact List.getD_eq_default _ _ (by omega)
        · by_cases h1 : (g.operator_vec.get ⟨k, hklt⟩).arg.getD 1 0 < i
          · rw [dif_pos h1]
            exact ih (by omega) _ (by omega)
          · rw [dif_neg h1]
            exact List.getD_eq_default _ _ (by omega)

theorem lowerIR_getD (ac : FP → FP) (g : cpp_graph) (input : List FP) (i : Nat) :
    (lowerIR ac g input).getD i FP.nan = nodeValue ac g input i := by
  by_cases hi : i < (initIR g input).length + g.operator_vec.length
  · have h := lowerIR_take_getD ac g input g.operator_vec.length le_rfl i hi
    rw [List.take_length] at h
    exact h
  · have hbase := initIR_length g input
    rw [lowerIR, List.getD_eq_default _ _ (by rw [foldl_pushOp_length]; omega)]
    rw [nodeValue]
    rw [if_neg (by omega), if_neg (by omega), if_neg (by omega)]
    rw [List.get?_eq_none.mpr (by omega)]

/-! ### Claim theorems -/

/-- C1: for a graph that passes validation and lowers successfully, calling
the compiled artifact with `input_length = n_dynamic_ind + n_variable_ind`
and `output_length = number of dependents` returns 0 and stores into
`output_ptr[i]` the value of the node named by `dependent_vec[i]`, node
values being computed over the single value numbering that reads
dynamic-independent inputs, then variable-independent inputs, then the
constants, then each operator node strictly in sequence order. -/
theorem from_graph_artifact_correct (ac : FP → FP) (g : cpp_graph)
    (input output : List FP)
    (hlow : from_graph (fun _ => false) g = "") :
    (callCompiled ac g (int32OfNat (g.n_dynamic_ind + g.n_variable_ind)) input
        (int32OfNat g.dependent_vec.length) output).1 = 0 ∧
    ∀ i, i < g.dependent_vec.length →
      (callCompiled ac g (int32OfNat (g.n_dynamic_ind + g.n_variable_ind)) input
          (int32OfNat g.dependent_vec.length) output).2.getD i FP.nan
        = nodeValue ac g input (g.dependent_vec.getD i 0) := by
  have hcond : ¬ ((int32OfNat (g.n_dynamic_ind + g.n_variable_ind)
        ≠ int32OfNat (g.n_dynamic_ind + g.n_variable_ind)) ∨
      (int32OfNat g.dependent_vec.length ≠ int32OfNat g.dependent_vec.length)) := by
    simp
  constructor
  · simp only [callCompiled]
    rw [if_neg hcond, if_neg hcond]
  · intro i hi
    simp only [callCompiled]
    rw [if_neg hcond]
    have hlt : i < ((List.range g.dependent_vec.length).map
        fun j => (lowerIR ac g input).getD (g.dependent_vec.getD j 0) FP.nan).length := by
      simpa using hi
    rw [List.getD_append _ _ _ _ hlt, List.getD_eq_getElem _ _ hlt]
    simp only [List.getElem_map, List.getElem_range]
    exact lowerIR_getD ac g input _

/-- Witness for C1 at the concrete graph `x0 + x1` evaluated at
`input = [1, 2]`. -/
theorem from_graph_artifact_correct_witness :
    from_graph (fun _ => false) addExampleGraph = "" ∧
    (callCompiled (fun _ => FP.nan) addExampleGraph
        (int32OfNat (addExampleGraph.n_dynamic_ind + addExampleGraph.n_variable_ind))
        [FP.num 1, FP.num 2]
        (int32OfNat addExampleGraph.dependent_vec.length) [FP.num 0]).1 = 0 ∧
    (callCompiled (fun _ => FP.nan) addExampleGraph
        (int32OfNat (addExampleGraph.n_dynamic_ind + addExampleGraph.n_variable_ind))
        [FP.num 1, FP.num 2]
        (int32OfNat addExampleGraph.dependent_vec.length) [FP.num 0]).2.getD 0 FP.nan
      = nodeValue (fun _ => FP.nan) addExampleGraph [FP.num 1, FP.num 2]
          (addExampleGraph.dependent_vec.getD 0 0) :=
  ⟨by decide,
   (from_graph_artifact_correct (fun _ => FP.nan) addExampleGraph
      [FP.num 1, FP.num 2] [FP.num 0] (by decide)).1,
   (from_graph_artifact_correct (fun _ => FP.nan) addExampleGraph
      [FP.num 1, FP.num 2] [FP.num 0] (by decide)).2 0 (by decide)⟩

/-- C3: whenever `input_length` differs from
`n_dynamic_ind + n_variable_ind` or `output_length` differs from the
number of dependents (a single combined logical-OR test), the call returns
a nonzero code and leaves the output buffer untouched. -/
theorem length_mismatch_fast_fail (ac : FP → FP) (g : cpp_graph)
    (len_input len_output : Int) (input output : List FP)
    (h : len_input ≠ int32OfNat (g.n_dynamic_ind + g.n_variable_ind) ∨
         len_output ≠ int32OfNat g.dependent_vec.length) :
    (callCompiled ac g len_input input len_output output).1 ≠ 0 ∧
    (callCompiled ac g len_input input len_output output).2 = output := by
  have hres : callCompiled ac g len_input input len_output output = (1, output) := by
    simp only [callCompiled]
    rw [if_pos h, if_pos h]
  rw [hres]
  exact ⟨one_ne_zero, rfl⟩

/-- Witness for C3: the 2-independent / 1-dependent graph `x0 + x1` called
with `input_length = 1` returns nonzero and leaves the sentinel output
untouched. -/
theorem length_mismatch_fast_fail_witness :
    ((1 : Int) ≠ int32OfNat (addExampleGraph.n_dynamic_ind + addExampleGraph.n_variable_ind) ∨
      (1 : Int) ≠ int32OfNat addExampleGraph.dependent_vec.length) ∧
    (callCompiled (fun _ => FP.nan) addExampleGraph 1 [FP.num 5] 1 [FP.num 7]).1 ≠ 0 ∧
    (callCompiled (fun _ => FP.nan) addExampleGraph 1 [FP.num 5] 1 [FP.num 7]).2
      = [FP.num 7] :=
  ⟨Or.inl (by decide),
   length_mismatch_fast_fail (fun _ => FP.nan) addExampleGraph 1 1 [FP.num 5] [FP.num 7]
     (Or.inl (by decide))⟩

/-- C8: lowering is deterministic — on equal graph inputs, the returned
message and the compiled artifact's observable behaviour (return code and
output values for every call) coincide. -/
theorem lowering_deterministic (vf : cpp_graph → Bool) (ac : FP → FP)
    (g1 g2 : cpp_graph) (h : g1 = g2) :
    from_graph vf g1 = from_graph vf g2 ∧
    ∀ (len_input len_output : Int) (input output : List FP),
      callCompiled ac g1 len_input input len_output output
        = callCompiled ac g2 len_input input len_output output := by
  subst h
  exact ⟨rfl, fun _ _ _ _ => rfl⟩

/-- Evaluation of the azmul example artifact on arbitrary inputs: the
emitted `select(fcmp oeq a 0.0, 0.0, fmul a b)` triple. -/
theorem azmulExample_call (ac : FP → FP) (a b sentinel : FP) :
    callCompiled ac azmulExampleGraph (int32OfNat 2) [a, b] (int32OfNat 1) [sentinel]
      = (0, [if FP.fcmpOEQ a fpZero then fpZero else FP.fmul a b]) := by
  by_cases h : FP.fcmpOEQ a fpZero <;>
    simp [callCompiled, lowerIR, initIR, pushOp, applyOp, azmulExampleGraph,
      List.range_succ, h, int32OfNat]

/-- C2: for a lowered `azmul(a, b)` node, the compiled artifact yields
exactly `+0.0` whenever the first argument compares ordered-equal to
`0.0` (for every `b`, including NaN and infinity), and the IEEE product
`a * b` otherwise. -/
theorem azmul_zero_rule (ac : FP → FP) (a b sentinel : FP) :
    (FP.fcmpOEQ a fpZero = true →
      callCompiled ac azmulExampleGraph (int32OfNat 2) [a, b] (int32OfNat 1) [sentinel]
        = (0, [fpZero])) ∧
    (FP.fcmpOEQ a fpZero = false →
      callCompiled ac azmulExampleGraph (int32OfNat 2) [a, b] (int32OfNat 1) [sentinel]
        = (0, [FP.fmul a b])) := by
  constructor <;> intro h <;> rw [azmulExample_call, h] <;> simp

/-- Witness for C2: `azmul(0.0, NaN) = 0.0` and
`azmul(2, +inf) = 2 * +inf`. -/
theorem azmul_zero_rule_witness :
    (FP.fcmpOEQ fpZero fpZero = true ∧
      callCompiled (fun _ => FP.nan) azmulExampleGraph (int32OfNat 2)
          [fpZero, FP.nan] (int32OfNat 1) [FP.num 7] = (0, [fpZero])) ∧
    (FP.fcmpOEQ (FP.num 2) fpZero = false ∧
      callCompiled (fun _ => FP.nan) azmulExampleGraph (int32OfNat 2)
          [FP.num 2, FP.inf false] (int32OfNat 1) [FP.num 7]
        = (0, [FP.fmul (FP.num 2) (FP.inf false)])) :=
  ⟨⟨by decide, (azmul_zero_rule (fun _ => FP.nan) fpZero FP.nan (FP.num 7)).1 (by decide)⟩,
   ⟨by decide,
    (azmul_zero_rule (fun _ => FP.nan) (FP.num 2) (FP.inf false) (FP.num 7)).2 (by decide)⟩⟩

/-- C9: the azmul zero guard tests only the first argument: with
`b = 0.0` and `a = NaN` (or `a = +inf`) the artifact returns the IEEE
product `a * 0.0 = NaN`, not `0.0`; whenever the first argument does not
compare equal to `0.0` the result is the plain product. -/
theorem azmul_guard_asymmetric (ac : FP → FP) :
    callCompiled ac azmulExampleGraph (int32OfNat 2) [FP.nan, fpZero] (int32OfNat 1)
        [FP.num 7] = (0, [FP.fmul FP.nan fpZero]) ∧
    FP.fmul FP.nan fpZero = FP.nan ∧
    callCompiled ac azmulExampleGraph (int32OfNat 2) [FP.inf false, fpZero] (int32OfNat 1)
        [FP.num 7] = (0, [FP.fmul (FP.inf false) fpZero]) ∧
    FP.fmul (FP.inf false) fpZero = FP.nan ∧
    (∀ a b : FP, FP.fcmpOEQ a fpZero = false →
      callCompiled ac azmulExampleGraph (int32OfNat 2) [a, b] (int32OfNat 1) [FP.num 7]
        = (0, [FP.fmul a b])) := by
  refine ⟨?_, rfl, ?_, rfl, ?_⟩
  · rw [azmulExample_call]
    rfl
  · rw [azmulExample_call]
    rfl
  · intro a b h
    rw [azmulExample_call, h]
    rfl

/-- Witness for C9: the general product clause at `a = 3`, `b = +0.0`. -/
theorem azmul_guard_asymmetric_witness :
    callCompiled (fun _ => FP.nan) azmulExampleGraph (int32OfNat 2) [FP.num 3, fpZero]
        (int32OfNat 1) [FP.num 7] = (0, [FP.fmul (FP.num 3) fpZero]) :=
  (azmul_guard_asymmetric (fun _ => FP.nan)).2.2.2.2 (FP.num 3) fpZero (by decide)

/-- C10: the azmul guard uses ordered equality against `+0.0`, which
identifies `-0.0` with `0.0`: for every second argument `b` the artifact
evaluates `azmul(-0.0, b)` to exactly `+0.0`. -/
theorem azmul_negzero_forces_poszero (ac : FP → FP) (b : FP) :
    FP.fcmpOEQ (FP.zero true) fpZero = true ∧
    callCompiled ac azmulExampleGraph (int32OfNat 2) [FP.zero true, b] (int32OfNat 1)
        [FP.num 7] = (0, [FP.zero false]) := by
  refine ⟨rfl, ?_⟩
  rw [azmulExample_call]
  rfl

/-- Witness for C8 at the concrete graph `x0 + x1`. -/
theorem lowering_deterministic_witness :
    from_graph (fun _ => false) addExampleGraph = from_graph (fun _ => false) addExampleGraph ∧
    callCompiled (fun _ => FP.nan) addExampleGraph 2 [FP.num 1, FP.num 2] 1 [FP.num 0]
      = callCompiled (fun _ => FP.nan) addExampleGraph 2 [FP.num 1, FP.num 2] 1 [FP.num 0] :=
  ⟨(lowering_deterministic (fun _ => false) (fun _ => FP.nan)
      addExampleGraph addExampleGraph rfl).1,
   (lowering_deterministic (fun _ => false) (fun _ => FP.nan)
      addExampleGraph addExampleGraph rfl).2 2 1 [FP.num 1, FP.num 2] [FP.num 0]⟩

/-- Any message produced by the four entry checks is non-empty. -/
theorem checkGraph_some_ne_empty (g : cpp_graph) (m : String)
    (h : checkGraph g = some m) : m ≠ "" := by
  unfold checkGraph at h
  split at h
  · cases h
    decide
  · split at h
    · cases h
      decide
    · split at h
      · cases h
        decide
      · split at h
        · cases h
          decide
        · cases h

/-- The unsupported-operator message is non-empty for every tag. -/
theorem unsupported_msg_ne_empty (op : graph_op_enum) :
    ("llvm_ir::from_graph: " ++ "graph_obj has following unsupported operator "
      ++ op_enum2name op) ≠ "" := by
  cases op <;> decide

/-- C4: the entry validation checks fire in the fixed order discrete
table, atomic table, print table, function name — each a hard failure
returned as `from_graph`'s message, the earliest violated check
determining the message — and a graph with all three tables empty and a
non-empty name passes all four checks. -/
theorem validation_order (vf : cpp_graph → Bool) (g : cpp_graph) :
    (g.discrete_name_vec_size ≠ 0 →
      checkGraph g
        = some ("llvm_ir::from_graph: " ++ "graph_obj.discrete_name_vec_size() != 0")) ∧
    (g.discrete_name_vec_size = 0 → g.atomic_name_vec_size ≠ 0 →
      checkGraph g
        = some ("llvm_ir::from_graph: " ++ "graph_obj.atomic_name_vec_size() != 0")) ∧
    (g.discrete_name_vec_size = 0 → g.atomic_name_vec_size = 0 →
      g.print_text_vec_size ≠ 0 →
      checkGraph g
        = some ("llvm_ir::from_graph: " ++ "graph_obj.print_text_vec_size() != 0")) ∧
    (g.discrete_name_vec_size = 0 → g.atomic_name_vec_size = 0 →
      g.print_text_vec_size = 0 → g.function_name = "" →
      checkGraph g
        = some ("llvm_ir::from_graph: " ++ "graph_obj.function_name_get() is empty")) ∧
    (g.discrete_name_vec_size = 0 → g.atomic_name_vec_size = 0 →
      g.print_text_vec_size = 0 → g.function_name ≠ "" → checkGraph g = none) ∧
    (∀ m, checkGraph g = some m → from_graph vf g = m) := by
  refine ⟨?_, ?_, ?_, ?_, ?_, ?_⟩
  · intro h1
    simp [checkGraph, h1]
  · intro h1 h2
    simp [checkGraph, h1, h2]
  · intro h1 h2 h3
    simp [checkGraph, h1, h2, h3]
  · intro h1 h2 h3 h4
    simp [checkGraph, h1, h2, h3, h4]
  · intro h1 h2 h3 h4
    simp [checkGraph, h1, h2, h3, h4]
  · intro m hm
    simp [from_graph, hm]

/-- Witness for C4: a graph with a non-empty discrete table is rejected
with the discrete-table message. -/
theorem validation_order_witness :
    checkGraph { addExampleGraph with discrete_name_vec_size := 1 }
      = some ("llvm_ir::from_graph: " ++ "graph_obj.discrete_name_vec_size() != 0") :=
  (validation_order (fun _ => false)
    { addExampleGraph with discrete_name_vec_size := 1 }).1 (by decide)

/-- C5: once the entry checks pass, lowering fails with the
unsupported-operator message naming the offending tag for every graph
containing a node outside the supported set
{add, sub, mul, div, azmul, neg, acosh}, and a graph all of whose tags lie
inside that set never produces this failure. -/
theorem unsupported_operator_rejected (vf : cpp_graph → Bool) (g : cpp_graph)
    (hok : checkGraph g = none) :
    ((∃ n ∈ g.operator_vec, supported n.op = false) →
      ∃ n ∈ g.operator_vec, supported n.op = false ∧
        from_graph vf g
          = "llvm_ir::from_graph: " ++ "graph_obj has following unsupported operator "
            ++ op_enum2name n.op) ∧
    ((∀ n ∈ g.operator_vec, supported n.op = true) →
      firstUnsupportedOp g.operator_vec = none ∧
      (from_graph vf g = "" ∨
        from_graph vf g
          = "llvm_ir::from_graph: " ++ "error during verification of llvm_ir function")) ∧
    (∀ op, supported op = true ↔
      (op = .add_graph_op ∨ op = .sub_graph_op ∨ op = .mul_graph_op ∨
       op = .div_graph_op ∨ op = .azmul_graph_op ∨ op = .neg_graph_op ∨
       op = .acosh_graph_op)) := by
  refine ⟨?_, ?_, ?_⟩
  · intro hex
    cases hfind : firstUnsupportedOp g.operator_vec with
    | none =>
        exfalso
        obtain ⟨n, hmem, hnsup⟩ := hex
        rw [firstUnsupportedOp, List.find?_eq_none] at hfind
        have := hfind n hmem
        simp [hnsup] at this
    | some m =>
        refine ⟨m, List.mem_of_find?_eq_some hfind, ?_, ?_⟩
        · have := List.find?_some hfind
          simpa using this
        · simp [from_graph, hok, hfind]
  · intro hall
    have hnone : firstUnsupportedOp g.operator_vec = none := by
      rw [firstUnsupportedOp, List.find?_eq_none]
      intro n hn
      simp [hall n hn]
    refine ⟨hnone, ?_⟩
    by_cases hv : vf g = true
    · right
      simp [from_graph, hok, hnone, hv]
    · left
      simp [from_graph, hok, hnone, hv]
  · intro op
    cases op <;> simp [supported]

/-- Witness for C5 at the concrete graph whose single node is `sin`. -/
theorem unsupported_operator_rejected_witness :
    ((∃ n ∈ sinExampleGraph.operator_vec, supported n.op = false) →
      ∃ n ∈ sinExampleGraph.operator_vec, supported n.op = false ∧
        from_graph (fun _ => false) sinExampleGraph
          = "llvm_ir::from_graph: " ++ "graph_obj has following unsupported operator "
            ++ op_enum2name n.op) ∧
    ((∀ n ∈ sinExampleGraph.operator_vec, supported n.op = true) →
      firstUnsupportedOp sinExampleGraph.operator_vec = none ∧
      (from_graph (fun _ => false) sinExampleGraph = "" ∨
        from_graph (fun _ => false) sinExampleGraph
          = "llvm_ir::from_graph: " ++ "error during verification of llvm_ir function")) ∧
    (∀ op, supported op = true ↔
      (op = .add_graph_op ∨ op = .sub_graph_op ∨ op = .mul_graph_op ∨
       op = .div_graph_op ∨ op = .azmul_graph_op ∨ op = .neg_graph_op ∨
       op = .acosh_graph_op)) :=
  unsupported_operator_rejected (fun _ => false) sinExampleGraph (by decide)

/-- C7: `from_graph` returns the empty string exactly when no error was
detected — all four entry checks pass, every operator tag is supported,
and the structural verifier reports no error; every failure path yields a
non-empty message. -/
theorem from_graph_empty_iff_no_error (vf : cpp_graph → Bool) (g : cpp_graph) :
    from_graph vf g = "" ↔
      (checkGraph g = none ∧ firstUnsupportedOp g.operator_vec = none ∧ vf g = false) := by
  constructor
  · intro h
    cases hc : checkGraph g with
    | some m =>
        exfalso
        rw [from_graph, hc] at h
        exact checkGraph_some_ne_empty g m hc h
    | none =>
        cases hop : firstUnsupportedOp g.operator_vec with
        | some n =>
            exfalso
            rw [from_graph, hc, hop] at h
            exact unsupported_msg_ne_empty n.op h
        | none =>
            by_cases hv : vf g = true
            · exfalso
              rw [from_graph, hc, hop, if_pos hv] at h
              exact absurd h (by decide)
            · exact ⟨rfl, rfl, by simpa using hv⟩
  · rintro ⟨hc, hop, hv⟩
    rw [from_graph, hc, hop, if_neg (by simp [hv])]

/-- Evaluation of the tape recorded at `X = [-1, 1]` at the recording
point itself: both branches taken at recording reproduce `exp 1`. -/
theorem tapedFun_at_rec : tapedFun [-1, 1] [-1, 1] = [Real.exp 1, Real.exp 1] := by
  have h0 : ¬ ((-1 : ℝ) ≥ 0) := by norm_num
  have h1 : ((1 : ℝ) ≥ 0) := by norm_num
  simp [tapedFun, List.range_succ, List.getD_cons_zero, List.getD_cons_succ, h0, h1]

/-- The reference evaluator at `[-1, 1]`. -/
theorem refFun_at_rec : refFun [-1, 1] = [Real.exp 1, Real.exp 1] := by
  have h0 : ¬ ((-1 : ℝ) ≥ 0) := by norm_num
  have h1 : ((1 : ℝ) ≥ 0) := by norm_num
  simp [refFun, h0, h1]

/-- The stale tape (recorded at `[-1, 1]`) evaluated at the sign-flipped
point `[1, -1]`: the baked-in branches give `exp (-1)` in both slots. -/
theorem tapedFun_at_flip : tapedFun [-1, 1] [1, -1] = [Real.exp (-1), Real.exp (-1)] := by
  have h0 : ¬ ((-1 : ℝ) ≥ 0) := by norm_num
  have h1 : ((1 : ℝ) ≥ 0) := by norm_num
  simp [tapedFun, List.range_succ, List.getD_cons_zero, List.getD_cons_succ, h0, h1]

/-- The reference evaluator at `[1, -1]`. -/
theorem refFun_at_flip : refFun [1, -1] = [Real.exp 1, Real.exp 1] := by
  have h0 : ¬ ((-1 : ℝ) ≥ 0) := by norm_num
  have h1 : ((1 : ℝ) ≥ 0) := by norm_num
  simp [refFun, h0, h1]

/-- The tape re-recorded at `[1, -1]` evaluated there. -/
theorem tapedFun_at_retape : tapedFun [1, -1] [1, -1] = [Real.exp 1, Real.exp 1] := by
  have h0 : ¬ ((-1 : ℝ) ≥ 0) := by norm_num
  have h1 : ((1 : ℝ) ≥ 0) := by norm_num
  simp [tapedFun, List.range_succ, List.getD_cons_zero, List.getD_cons_succ, h0, h1]

/-- The tolerance bound `absolute_tol + relative_tol * |r|` is nonnegative
at the tolerances of the example. -/
theorem tol_bound_nonneg (r : ℝ) : (0 : ℝ) ≤ 1e-10 + 1e-10 * |r| := by
  have habs : (0 : ℝ) ≤ |r| := abs_nonneg _
  have ht : (0 : ℝ) ≤ 1e-10 := by norm_num
  nlinarith

/-- C6: for `f(x) = exp(x) if x >= 0 else exp(-x)` recorded at
`x = [-1, 1]` and tolerances `1e-10`, the equivalence check passes at the
recording point, fails at the sign-flipped point `[1, -1]` (the recorded
sequence baked in the original branches), and passes again at `[1, -1]`
after re-recording there. -/
theorem funcheck_retape_example :
    FunCheckHolds (tapedFun [-1, 1]) refFun [-1, 1] 1e-10 1e-10 ∧
    ¬ FunCheckHolds (tapedFun [-1, 1]) refFun [1, -1] 1e-10 1e-10 ∧
    FunCheckHolds (tapedFun [1, -1]) refFun [1, -1] 1e-10 1e-10 := by
  refine ⟨?_, ?_, ?_⟩
  · intro i hi
    rw [refFun_at_rec] at hi
    rw [tapedFun_at_rec, refFun_at_rec]
    have h2 : i < 2 := by simpa using hi
    interval_cases i <;>
      simpa using tol_bound_nonneg (Real.exp 1)
  · intro hcontra
    have h := hcontra 0 (by rw [refFun_at_flip]; simp)
    rw [tapedFun_at_flip, refFun_at_flip] at h
    simp only [List.getD_cons_zero] at h
    have e1 := Real.exp_one_gt_d9
    have e2 := Real.exp_one_lt_d9
    have e3 : Real.exp (-1) < 1 := by
      rw [Real.exp_lt_one_iff]
      norm_num
    have e4 : (0 : ℝ) < Real.exp (-1) := Real.exp_pos _
    rw [abs_of_neg (by linarith), abs_of_pos (Real.exp_pos 1)] at h
    norm_num at h e1 e2
    linarith
  · intro i hi
    rw [refFun_at_flip] at hi
    rw [tapedFun_at_retape, refFun_at_flip]
    have h2 : i < 2 := by simpa using hi
    interval_cases i <;>
      simpa using tol_bound_nonneg (Real.exp 1)

end CppAD
